import Mathlib

/-!
Shallow embedding of the asn1-rs codec core (BER/DER TLV encoding) and proofs
about its concrete type conformances: Boolean, bool, Null, unit, OctetString,
byte slices, GeneralString and UtcTime.

Byte streams are modelled as `List Nat` (each element a byte value 0..255);
machine integers are modelled as `Nat`. A writer that accepts all bytes is
assumed, so an encoder is a pure function from a value to the list of bytes it
writes. Fallible operations return `Except Error`; operations that can panic
in the source (out-of-bounds indexing) return `Option (Except Error _)`, with
`none` standing for the panic.
-/

namespace Asn1

/-- Big-endian base-256 digit expansion, fuel-based so that it reduces by
kernel evaluation. With fuel at least `n + 1`, `beBytesCore fuel n acc`
prepends the minimal big-endian byte expansion of `n` to `acc`. -/
def beBytesCore : Nat → Nat → List Nat → List Nat
  | 0, _, acc => acc
  | fuel + 1, n, acc =>
    if n < 256 then n :: acc else beBytesCore fuel (n / 256) (n % 256 :: acc)

/-- Minimal big-endian byte expansion of `n` (always nonempty; `0` encodes
as `[0]`). -/
def beBytes (n : Nat) : List Nat :=
  beBytesCore (n + 1) n []

/-- Number of base-256 digits of `n`, fuel-based companion of `beBytesCore`. -/
def byteCountCore : Nat → Nat → Nat
  | 0, _ => 0
  | fuel + 1, n => if n < 256 then 1 else byteCountCore fuel (n / 256) + 1

/-- Number of bytes in the minimal big-endian expansion of `n`, computed
without building the byte list. -/
def byteCount (n : Nat) : Nat :=
  byteCountCore (n + 1) n

/-- Decimal digit expansion of `n` as ASCII byte values, fuel-based. -/
def decDigitsCore : Nat → Nat → List Nat → List Nat
  | 0, _, acc => acc
  | fuel + 1, n, acc =>
    if n < 10 then (0x30 + n) :: acc
    else decDigitsCore fuel (n / 10) ((0x30 + n % 10) :: acc)

/-- ASCII bytes of the decimal representation of `n` (no padding). -/
def decDigits (n : Nat) : List Nat :=
  decDigitsCore (n + 1) n []

/-- Model of the Rust format specifier used by the UtcTime encoder: the
decimal representation of `n`, left-padded with ASCII zeros to a minimum
width of 2. -/
def fmt02 (n : Nat) : List Nat :=
  let d := decDigits n
  if d.length < 2 then List.replicate (2 - d.length) 0x30 ++ d else d

/-- ASN.1 class of a tag: a 2-bit field, exactly four values. -/
inductive Class
  | Universal
  | Application
  | ContextSpecific
  | Private
  deriving DecidableEq, Repr

/-- Numeric value of the 2-bit class field. -/
def Class.bits : Class → Nat
  | .Universal => 0
  | .Application => 1
  | .ContextSpecific => 2
  | .Private => 3

/-- Modelled from the spec: the inverse mapping from the 2-bit class field of
a tag octet back to a `Class` (the tag-octet parser itself is part of the
out-of-scope stream reader). -/
def classOfBits (n : Nat) : Class :=
  if n = 0 then Class.Universal
  else if n = 1 then Class.Application
  else if n = 2 then Class.ContextSpecific
  else Class.Private

/-- ASN.1 tag: a raw numeric wrapper (the Rust newtype `Tag(pub u32)`). -/
structure Tag where
  num : Nat
  deriving DecidableEq, Repr

/-- Universal tag constant for BOOLEAN. -/
def Tag.Boolean : Tag := ⟨1⟩

/-- Universal tag constant for OCTET STRING. -/
def Tag.OctetString : Tag := ⟨4⟩

/-- Universal tag constant for NULL. -/
def Tag.Null : Tag := ⟨5⟩

/-- Universal tag constant for UTCTime. -/
def Tag.UtcTime : Tag := ⟨23⟩

/-- Universal tag constant for GeneralString. -/
def Tag.GeneralString : Tag := ⟨27⟩

/-- Closed error taxonomy of the codec core. -/
inductive Error
  | InvalidLength
  | InvalidValue (tag : Nat) (msg : String)
  | DerConstraintFailed
  | StringInvalidCharset
  | LifetimeError
  | UnexpectedTag (expected actual : Nat)
  deriving DecidableEq, Repr

/-- Modelled from the spec: `Tag::assert_eq`, the universal gate at the top of
every decode conversion — mismatched tag is surfaced as an unexpected-tag
error (the helper lives outside the provided source files). -/
def Tag.assert_eq (t expected : Tag) : Except Error Unit :=
  if t = expected then Except.ok () else Except.error (Error.UnexpectedTag expected.num t.num)

/-- Modelled from the spec: `Tag::invalid_value`, wrapping a tag and a reason
into the `InvalidValue` error (the helper lives outside the provided source
files). -/
def Tag.invalid_value (t : Tag) (msg : String) : Error :=
  Error.InvalidValue t.num msg

/-- ASN.1 length: definite (exact content byte count) or indefinite. -/
inductive Length
  | Definite (n : Nat)
  | Indefinite
  deriving DecidableEq, Repr

/-- Modelled from the spec: `Length::is_null`, true exactly when the length
denotes zero-length content (used by the Null decoders; the helper lives
outside the provided source files). -/
def Length.is_null : Length → Bool
  | .Definite 0 => true
  | _ => false

/-- Modelled from the spec: DER encoding of a length (X.690 §8.1.3) — short
form for values up to 127, otherwise long form with the minimal number of
big-endian bytes; the indefinite marker octet is `0x80`. -/
def Length.to_der : Length → List Nat
  | .Definite n =>
      if n ≤ 127 then [n] else (0x80 + (beBytes n).length) :: beBytes n
  | .Indefinite => [0x80]

/-- Modelled from the spec: number of bytes of the encoded length, computed
without writing. -/
def Length.to_der_len : Length → Nat
  | .Definite n => if n ≤ 127 then 1 else 1 + byteCount n
  | .Indefinite => 1

/-- ASN.1 header: class, constructed flag (a byte, 0 or 1 in practice), tag
and length. -/
structure Header where
  cls : Class
  constructed : Nat
  tag : Tag
  length : Length
  deriving DecidableEq, Repr

/-- Pure constructor `Header::new`, no validation beyond storing fields. -/
def Header.new (cls : Class) (constructed : Nat) (tag : Tag) (length : Length) : Header :=
  ⟨cls, constructed, tag, length⟩

/-- Modelled from the spec: `Header::to_der_len` — 1 byte for the tag octet
(tag numbers of the shown types are at most 30) plus the encoded length size
(the implementation lives outside the provided source files). -/
def Header.to_der_len (h : Header) : Nat :=
  1 + h.length.to_der_len

/-- Modelled from the spec: `Header::to_der` — the tag octet (bits 8–7 class,
bit 6 constructed flag, bits 5–1 tag number) followed by the encoded length
(the implementation lives outside the provided source files). -/
def Header.to_der (h : Header) : List Nat :=
  (h.cls.bits * 64 + h.constructed % 2 * 32 + h.tag.num) :: h.length.to_der

/-- Modelled from the spec: `Header::assert_primitive` fails if the
constructed bit is set; the failure is a DER-constraint error, since a
constructed encoding of a primitive-only type is BER-legal but DER-illegal
(the implementation lives outside the provided source files). -/
def Header.assert_primitive (h : Header) : Except Error Unit :=
  if h.constructed ≠ 0 then Except.error Error.DerConstraintFailed else Except.ok ()

/-- Borrow-or-own byte region (the Rust `Cow<[u8]>`). -/
inductive Cow
  | Borrowed (bytes : List Nat)
  | Owned (bytes : List Nat)
  deriving DecidableEq, Repr

/-- Underlying bytes of a `Cow` (the `Deref` view used by `any.data[i]` and
`any.data.iter()`). -/
def Cow.bytes : Cow → List Nat
  | .Borrowed b => b
  | .Owned b => b

/-- A generic decoded TLV unit: header plus uninterpreted content, which
either borrows from the input buffer or owns a reconstructed copy. -/
structure Any where
  header : Header
  data : Cow
  deriving DecidableEq, Repr

/-- The header's tag, used for dispatch before a typed conversion. -/
def Any.tag (a : Any) : Tag :=
  a.header.tag

/-- Yields the content as a borrow-or-own value (`Any::into_cow`). -/
def Any.into_cow (a : Any) : Cow :=
  a.data

/-- Modelled from the spec: length-octets parser (X.690 §8.1.3): high bit 0
is short form; otherwise the low 7 bits count the following big-endian length
bytes, a count of 0 meaning indefinite and the reserved count 127 failing
(the stream reader is an out-of-scope collaborator). -/
def parseLength (input : List Nat) : Except Error (Length × List Nat) :=
  match input with
  | [] => Except.error Error.InvalidLength
  | b :: rest =>
    if b < 0x80 then Except.ok (Length.Definite b, rest)
    else
      let count := b % 0x80
      if count = 0 then Except.ok (Length.Indefinite, rest)
      else if count = 0x7f then Except.error Error.InvalidLength
      else if rest.length < count then Except.error Error.InvalidLength
      else
        Except.ok
          (Length.Definite (List.foldl (fun acc d => acc * 256 + d) 0 (rest.take count)),
           rest.drop count)

/-- Modelled from the spec: header parser — one tag octet (bits 8–7 class,
bit 6 constructed, bits 5–1 tag number; high-tag-number form out of scope)
followed by the length octets (the stream reader is an out-of-scope
collaborator). -/
def parseHeader (input : List Nat) : Except Error (Header × List Nat) :=
  match input with
  | [] => Except.error Error.InvalidLength
  | t :: rest =>
    match parseLength rest with
    | Except.error e => Except.error e
    | Except.ok (len, rest2) =>
      Except.ok (Header.new (classOfBits (t / 64)) (t / 32 % 2) (Tag.mk (t % 32)) len, rest2)

/-- Modelled from the spec: materializing one `Any` from a byte stream — the
header is parsed, then the content is sliced to exactly `header.length` bytes
when definite (indefinite content is defragmented by the caller before
reaching this layer, so it is not produced here); the slice borrows from the
input. -/
def parseAny (input : List Nat) : Except Error (Any × List Nat) :=
  match parseHeader input with
  | Except.error e => Except.error e
  | Except.ok (h, rest) =>
    match h.length with
    | Length.Definite n =>
      if rest.length < n then Except.error Error.InvalidLength
      else Except.ok (Any.mk h (Cow.Borrowed (rest.take n)), rest.drop n)
    | Length.Indefinite => Except.error Error.InvalidLength

/-! ### Boolean -/

/-- `Boolean`: the decoded ASN.1 BOOLEAN, storing the raw content octet. -/
structure Boolean where
  value : Nat
  deriving DecidableEq, Repr

/-- `Boolean::new`. -/
def Boolean.new (value : Nat) : Boolean :=
  ⟨value⟩

/-- `Boolean::FALSE`. -/
def Boolean.FALSE : Boolean := Boolean.new 0

/-- `Boolean::TRUE`. -/
def Boolean.TRUE : Boolean := Boolean.new 0xff

/-- `Boolean::bool`: BER interpretation — any nonzero content octet is true. -/
def Boolean.bool (b : Boolean) : Bool :=
  b.value != 0

/-- `TryFrom<Any> for Boolean`: assert the tag, require a content length of
exactly one octet, then read the content octet. Indexing `any.data[0]` panics
(`none`) if the content is empty despite the header length. -/
def Boolean.try_from (any : Any) : Option (Except Error Boolean) :=
  match any.tag.assert_eq Tag.Boolean with
  | Except.error e => some (Except.error e)
  | Except.ok _ =>
    if any.header.length ≠ Length.Definite 1 then some (Except.error Error.InvalidLength)
    else
      match any.data.bytes with
      | [] => none
      | value :: _ => some (Except.ok (Boolean.new value))

/-- `CheckDerConstraints for Boolean`: reads `any.data[0]` unconditionally
(panicking, `none`, on empty content) and requires the octet to be 0x00 or
0xff (X.690 §11.1). -/
def Boolean.check_constraints (any : Any) : Option (Except Error Unit) :=
  match any.data.bytes with
  | [] => none
  | c :: _ =>
    if ¬(c = 0 ∨ c = 0xff) then some (Except.error Error.DerConstraintFailed)
    else some (Except.ok ())

/-- `ToDer::to_der_len for Boolean`: 3 = 1 (tag) + 1 (length) + 1 (value). -/
def Boolean.to_der_len (_ : Boolean) : Except Error Nat :=
  Except.ok 3

/-- `ToDer::to_der for Boolean`: tag octet, length 1, canonical value octet
(nonzero maps to 0xff). -/
def Boolean.to_der (b : Boolean) : List Nat :=
  [Tag.Boolean.num, 0x01, if b.value != 0 then 0xff else 0x00]

/-- `ToDer::to_der_raw for Boolean`: tag octet, length 1, stored value octet
verbatim. -/
def Boolean.to_der_raw (b : Boolean) : List Nat :=
  [Tag.Boolean.num, 0x01, b.value]

/-- `TryFrom<Any> for bool`: assert the tag, decode a `Boolean`, then take
its BER truth value. -/
def Bool.try_from (any : Any) : Option (Except Error Bool) :=
  match any.tag.assert_eq Tag.Boolean with
  | Except.error e => some (Except.error e)
  | Except.ok _ =>
    match Boolean.try_from any with
    | none => none
    | some (Except.error e) => some (Except.error e)
    | some (Except.ok b) => some (Except.ok b.bool)

/-- `CheckDerConstraints for bool`: identical to the `Boolean` instance. -/
def Bool.check_constraints (any : Any) : Option (Except Error Unit) :=
  match any.data.bytes with
  | [] => none
  | c :: _ =>
    if ¬(c = 0 ∨ c = 0xff) then some (Except.error Error.DerConstraintFailed)
    else some (Except.ok ())

/-- `ToDer::to_der_len for bool`. -/
def Bool.to_der_len (_ : Bool) : Except Error Nat :=
  Except.ok 3

/-- `ToDer::to_der for bool`. -/
def Bool.to_der (b : Bool) : List Nat :=
  [Tag.Boolean.num, 0x01, if b then 0xff else 0x00]

/-! ### Null and unit -/

/-- `Null`: the decoded ASN.1 NULL, carrying no data. -/
structure Null where
  deriving DecidableEq, Repr

/-- `Null::new`. -/
def Null.new : Null := ⟨⟩

/-- `TryFrom<Any> for Null`: assert the tag, then require zero-length
content. -/
def Null.try_from (any : Any) : Except Error Null :=
  match any.tag.assert_eq Tag.Null with
  | Except.error e => Except.error e
  | Except.ok _ =>
    if ¬any.header.length.is_null then Except.error Error.InvalidLength
    else Except.ok ⟨⟩

/-- `CheckDerConstraints for Null`: no extra DER constraint. -/
def Null.check_constraints (_ : Any) : Except Error Unit :=
  Except.ok ()

/-- `ToDer::to_der_len for Null`. -/
def Null.to_der_len (_ : Null) : Except Error Nat :=
  Except.ok 2

/-- `ToDer::write_der_header for Null`: the fixed two bytes tag 0x05,
length 0. -/
def Null.write_der_header (_ : Null) : List Nat :=
  [0x05, 0x00]

/-- `ToDer::write_der_content for Null`: nothing. -/
def Null.write_der_content (_ : Null) : List Nat :=
  []

/-- `ToDer::to_der for Null`, by the trait's default composition of header
and content writes. -/
def Null.to_der (n : Null) : List Nat :=
  n.write_der_header ++ n.write_der_content

/-- `TryFrom<Any> for ()`: assert the tag, assert a primitive encoding, then
require zero-length content. -/
def Unit.try_from (any : Any) : Except Error Unit :=
  match any.tag.assert_eq Tag.Null with
  | Except.error e => Except.error e
  | Except.ok _ =>
    match any.header.assert_primitive with
    | Except.error e => Except.error e
    | Except.ok _ =>
      if ¬any.header.length.is_null then Except.error Error.InvalidLength
      else Except.ok ()

/-- `CheckDerConstraints for ()`: no extra DER constraint. -/
def Unit.check_constraints (_ : Any) : Except Error Unit :=
  Except.ok ()

/-- `ToDer::to_der_len for ()`. -/
def Unit.to_der_len (_ : Unit) : Except Error Nat :=
  Except.ok 2

/-- `ToDer::write_der_header for ()`. -/
def Unit.write_der_header (_ : Unit) : List Nat :=
  [0x05, 0x00]

/-- `ToDer::write_der_content for ()`. -/
def Unit.write_der_content (_ : Unit) : List Nat :=
  []

/-- `ToDer::to_der for ()`, by the trait's default composition. -/
def Unit.to_der (u : Unit) : List Nat :=
  Unit.write_der_header u ++ Unit.write_der_content u

/-! ### OctetString and byte slices -/

/-- `OctetString`: opaque content bytes, borrowed or owned. -/
structure OctetString where
  data : Cow
  deriving DecidableEq, Repr

/-- `OctetString::new`: wraps a borrowed slice. -/
def OctetString.new (s : List Nat) : OctetString :=
  ⟨Cow.Borrowed s⟩

/-- `AsRef<[u8]> for OctetString`. -/
def OctetString.as_ref (s : OctetString) : List Nat :=
  s.data.bytes

/-- `TryFrom<Any> for OctetString`: assert the tag, then take the content as
a borrow-or-own value. -/
def OctetString.try_from (any : Any) : Except Error OctetString :=
  match any.tag.assert_eq Tag.OctetString with
  | Except.error e => Except.error e
  | Except.ok _ => Except.ok ⟨any.into_cow⟩

/-- `CheckDerConstraints for OctetString`: DER requires a primitive
encoding (X.690 §10.2). -/
def OctetString.check_constraints (any : Any) : Except Error Unit :=
  any.header.assert_primitive

/-- `ToDer::to_der_len for OctetString`: header length plus content
length. -/
def OctetString.to_der_len (s : OctetString) : Except Error Nat :=
  Except.ok ((Header.new Class.Universal 0 Tag.OctetString
    (Length.Definite s.data.bytes.length)).to_der_len + s.data.bytes.length)

/-- `ToDer::to_der for OctetString`: a freshly built universal primitive
header followed by the content bytes. -/
def OctetString.to_der (s : OctetString) : List Nat :=
  (Header.new Class.Universal 0 Tag.OctetString
    (Length.Definite s.data.bytes.length)).to_der ++ s.data.bytes

/-- `TryFrom<Any> for &[u8]` (the zero-copy slice target, modelled as a bare
byte list): decode an `OctetString`, then demand a borrow — owned content is
a lifetime error, never a silent copy. -/
def Slice.try_from (any : Any) : Except Error (List Nat) :=
  match any.tag.assert_eq Tag.OctetString with
  | Except.error e => Except.error e
  | Except.ok _ =>
    match OctetString.try_from any with
    | Except.error e => Except.error e
    | Except.ok s =>
      match s.data with
      | Cow.Borrowed b => Except.ok b
      | Cow.Owned _ => Except.error Error.LifetimeError

/-- `CheckDerConstraints for &[u8]`: DER requires a primitive encoding. -/
def Slice.check_constraints (any : Any) : Except Error Unit :=
  any.header.assert_primitive

/-- `ToDer::to_der_len for &[u8]`. -/
def Slice.to_der_len (s : List Nat) : Except Error Nat :=
  Except.ok ((Header.new Class.Universal 0 Tag.OctetString
    (Length.Definite s.length)).to_der_len + s.length)

/-- `ToDer::to_der for &[u8]`. -/
def Slice.to_der (s : List Nat) : List Nat :=
  (Header.new Class.Universal 0 Tag.OctetString (Length.Definite s.length)).to_der ++ s

/-! ### GeneralString -/

/-- Modelled from the spec: the `asn1_string!` macro expansion defining the
`GeneralString` restricted-character-string type is not among the provided
source files; following the spec, the type holds its validated content
bytes. -/
structure GeneralString where
  data : List Nat
  deriving DecidableEq, Repr

/-- `GeneralString::test_string_charset`: every content byte must be ASCII. -/
def GeneralString.test_string_charset (i : List Nat) : Except Error Unit :=
  if ¬i.all (fun b => b ≤ 0x7f) then Except.error Error.StringInvalidCharset
  else Except.ok ()

/-- Modelled from the spec: the macro-generated `TryFrom<Any> for
GeneralString` — assert the tag, re-validate every content byte against the
repertoire, then build the value. -/
def GeneralString.try_from (any : Any) : Except Error GeneralString :=
  match any.tag.assert_eq Tag.GeneralString with
  | Except.error e => Except.error e
  | Except.ok _ =>
    match GeneralString.test_string_charset any.data.bytes with
    | Except.error e => Except.error e
    | Except.ok _ => Except.ok ⟨any.data.bytes⟩

/-- Modelled from the spec: the macro-generated `ToDer::to_der_len` — header
length plus content length. -/
def GeneralString.to_der_len (s : GeneralString) : Except Error Nat :=
  Except.ok ((Header.new Class.Universal 0 Tag.GeneralString
    (Length.Definite s.data.length)).to_der_len + s.data.length)

/-- Modelled from the spec: the macro-generated `ToDer::to_der` — a universal
primitive header followed by the content bytes. -/
def GeneralString.to_der (s : GeneralString) : List Nat :=
  (Header.new Class.Universal 0 Tag.GeneralString (Length.Definite s.data.length)).to_der
    ++ s.data

/-! ### UtcTime -/

/-- Decoded timezone: UTC (`Z`), a signed offset, or undefined. -/
inductive ASN1TimeZone
  | Z
  | Offset (sign : Int) (hour minute : Nat)
  | Undefined
  deriving DecidableEq, Repr

/-- Decoded calendar value produced by time-type parsing. -/
structure ASN1DateTime where
  year : Nat
  month : Nat
  day : Nat
  hour : Nat
  minute : Nat
  second : Nat
  fractional : Option Nat
  tz : ASN1TimeZone
  deriving DecidableEq, Repr

/-- `ASN1DateTime::new`. -/
def ASN1DateTime.new (year month day hour minute second : Nat) (fractional : Option Nat)
    (tz : ASN1TimeZone) : ASN1DateTime :=
  ⟨year, month, day, hour, minute, second, fractional, tz⟩

/-- Modelled from the spec: `datetime::decode_decimal` — each two-character
field is decoded as a base-10 two-digit number, and a non-digit in any field
is a value error (the helper lives outside the provided source files). -/
def decode_decimal (tag : Tag) (hi lo : Nat) : Except Error Nat :=
  if 0x30 ≤ hi ∧ hi ≤ 0x39 ∧ 0x30 ≤ lo ∧ lo ≤ 0x39 then
    Except.ok ((hi - 0x30) * 10 + (lo - 0x30))
  else Except.error (tag.invalid_value "not a digit")

/-- `UtcTime`: a parsed UTCTime, wrapping the decoded calendar value. -/
structure UtcTime where
  dt : ASN1DateTime
  deriving DecidableEq, Repr

/-- `UtcTime::new`. -/
def UtcTime.new (datetime : ASN1DateTime) : UtcTime :=
  ⟨datetime⟩

/-- `UtcTime::from_bytes`: parse `YYMMDDhhmm`, then treat any remainder of at
least two bytes as the seconds digits (otherwise seconds default to 0), check
the field bounds, then parse the timezone (`Z`, `+hhmm` or `-hhmm`). -/
def UtcTime.from_bytes (bytes : List Nat) : Except Error UtcTime := do
  let (year, month, day, hour, minute, rem) ←
    match bytes with
    | y1 :: y2 :: mo1 :: mo2 :: d1 :: d2 :: h1 :: h2 :: mi1 :: mi2 :: rem => do
      let year ← decode_decimal Tag.UtcTime y1 y2
      let month ← decode_decimal Tag.UtcTime mo1 mo2
      let day ← decode_decimal Tag.UtcTime d1 d2
      let hour ← decode_decimal Tag.UtcTime h1 h2
      let minute ← decode_decimal Tag.UtcTime mi1 mi2
      pure (year, month, day, hour, minute, rem)
    | _ => Except.error (Tag.UtcTime.invalid_value "malformed time string (not yymmddhhmm)")
  if rem.isEmpty then
    Except.error (Tag.UtcTime.invalid_value "malformed time string")
  else
    let (second, rem) ←
      match rem with
      | sec1 :: sec2 :: rem2 => do
        let second ← decode_decimal Tag.UtcTime sec1 sec2
        pure (second, rem2)
      | _ => pure ((0 : Nat), rem)
    if month > 12 ∨ day > 31 ∨ hour > 23 ∨ minute > 59 ∨ second > 59 then
      Except.error (Tag.UtcTime.invalid_value "time components with invalid values")
    else if rem.isEmpty then
      Except.error (Tag.UtcTime.invalid_value "malformed time string")
    else do
      let tz ←
        match rem with
        | [0x5a] => pure ASN1TimeZone.Z
        | [0x2b, h1, h2, m1, m2] => do
          let hh ← decode_decimal Tag.UtcTime h1 h2
          let mm ← decode_decimal Tag.UtcTime m1 m2
          pure (ASN1TimeZone.Offset 1 hh mm)
        | [0x2d, h1, h2, m1, m2] => do
          let hh ← decode_decimal Tag.UtcTime h1 h2
          let mm ← decode_decimal Tag.UtcTime m1 m2
          pure (ASN1TimeZone.Offset (-1) hh mm)
        | _ => Except.error (Tag.UtcTime.invalid_value "malformed time string: no time zone")
      pure (UtcTime.new (ASN1DateTime.new year month day hour minute second none tz))

/-- `is_visible` from `TryFrom<Any> for UtcTime`: printable ASCII range. -/
def is_visible (b : Nat) : Bool :=
  decide (0x20 ≤ b ∧ b ≤ 0x7f)

/-- `TryFrom<Any> for UtcTime`: assert the tag, require every content byte to
be visible ASCII, then parse the time grammar. -/
def UtcTime.try_from (any : Any) : Except Error UtcTime :=
  match any.tag.assert_eq Tag.UtcTime with
  | Except.error e => Except.error e
  | Except.ok _ =>
    if ¬any.data.bytes.all is_visible then Except.error Error.StringInvalidCharset
    else UtcTime.from_bytes any.data.bytes

/-- `CheckDerConstraints for UtcTime`: no extra DER constraint. -/
def UtcTime.check_constraints (_ : Any) : Except Error Unit :=
  Except.ok ()

/-- `ToDer::to_der_len for UtcTime`: the fixed constant 15 = 1 (tag) +
1 (length) + 13 (content `YYMMDDhhmmssZ`). -/
def UtcTime.to_der_len (_ : UtcTime) : Except Error Nat :=
  Except.ok 15

/-- `ToDer::write_der_header for UtcTime`: tag octet and the fixed length
byte 13. -/
def UtcTime.write_der_header (_ : UtcTime) : List Nat :=
  [Tag.UtcTime.num, 13]

/-- `ToDer::write_der_content for UtcTime`: each field formatted with the
Rust specifier `{:02}` (decimal, zero-padded to a minimum of two digits),
always including seconds and always ending with the byte `Z`. -/
def UtcTime.write_der_content (t : UtcTime) : List Nat :=
  fmt02 t.dt.year ++ fmt02 t.dt.month ++ fmt02 t.dt.day ++ fmt02 t.dt.hour ++
    fmt02 t.dt.minute ++ fmt02 t.dt.second ++ [0x5a]

/-- `ToDer::to_der for UtcTime`, by the trait's default composition of header
and content writes. -/
def UtcTime.to_der (t : UtcTime) : List Nat :=
  t.write_der_header ++ t.write_der_content

/-! ### The decode path: header/`Any` parse followed by the typed
conversion -/

/-- Decode path for `Boolean`: parse one `Any` from the byte stream and
convert it. -/
def Boolean.from_der (input : List Nat) : Option (Except Error (Boolean × List Nat)) :=
  match parseAny input with
  | Except.error e => some (Except.error e)
  | Except.ok (a, rest) =>
    match Boolean.try_from a with
    | none => none
    | some (Except.error e) => some (Except.error e)
    | some (Except.ok v) => some (Except.ok (v, rest))

/-- Decode path for `bool`. -/
def Bool.from_der (input : List Nat) : Option (Except Error (Bool × List Nat)) :=
  match parseAny input with
  | Except.error e => some (Except.error e)
  | Except.ok (a, rest) =>
    match Bool.try_from a with
    | none => none
    | some (Except.error e) => some (Except.error e)
    | some (Except.ok v) => some (Except.ok (v, rest))

/-- Decode path for `Null`. -/
def Null.from_der (input : List Nat) : Except Error (Null × List Nat) :=
  match parseAny input with
  | Except.error e => Except.error e
  | Except.ok (a, rest) =>
    match Null.try_from a with
    | Except.error e => Except.error e
    | Except.ok v => Except.ok (v, rest)

/-- Decode path for `()`. -/
def Unit.from_der (input : List Nat) : Except Error (Unit × List Nat) :=
  match parseAny input with
  | Except.error e => Except.error e
  | Except.ok (a, rest) =>
    match Unit.try_from a with
    | Except.error e => Except.error e
    | Except.ok v => Except.ok (v, rest)

/-- Decode path for `OctetString`. -/
def OctetString.from_der (input : List Nat) : Except Error (OctetString × List Nat) :=
  match parseAny input with
  | Except.error e => Except.error e
  | Except.ok (a, rest) =>
    match OctetString.try_from a with
    | Except.error e => Except.error e
    | Except.ok v => Except.ok (v, rest)

/-- Decode path for `&[u8]`. -/
def Slice.from_der (input : List Nat) : Except Error (List Nat × List Nat) :=
  match parseAny input with
  | Except.error e => Except.error e
  | Except.ok (a, rest) =>
    match Slice.try_from a with
    | Except.error e => Except.error e
    | Except.ok v => Except.ok (v, rest)

/-- Decode path for `GeneralString`. -/
def GeneralString.from_der (input : List Nat) : Except Error (GeneralString × List Nat) :=
  match parseAny input with
  | Except.error e => Except.error e
  | Except.ok (a, rest) =>
    match GeneralString.try_from a with
    | Except.error e => Except.error e
    | Except.ok v => Except.ok (v, rest)

/-- Decode path for `UtcTime`. -/
def UtcTime.from_der (input : List Nat) : Except Error (UtcTime × List Nat) :=
  match parseAny input with
  | Except.error e => Except.error e
  | Except.ok (a, rest) =>
    match UtcTime.try_from a with
    | Except.error e => Except.error e
    | Except.ok v => Except.ok (v, rest)

/-! ### Lemmas about the big-endian byte expansion -/

theorem beBytesCore_append (fuel : Nat) :
    ∀ n acc, beBytesCore fuel n acc = beBytesCore fuel n [] ++ acc := by
  induction fuel with
  | zero => intro n acc; rfl
  | succ f ih =>
    intro n acc
    simp only [beBytesCore]
    by_cases h : n < 256
    · simp [h]
    · simp only [if_neg h]
      rw [ih (n / 256) (n % 256 :: acc), ih (n / 256) [n % 256]]
      simp

theorem beBytesCore_mono :
    ∀ fuel₁ fuel₂ n, n < fuel₁ → n < fuel₂ →
      beBytesCore fuel₁ n [] = beBytesCore fuel₂ n [] := by
  intro fuel₁
  induction fuel₁ with
  | zero => intro fuel₂ n h₁ _; omega
  | succ f ih =>
    intro fuel₂ n h₁ h₂
    cases fuel₂ with
    | zero => omega
    | succ f₂ =>
      simp only [beBytesCore]
      by_cases h : n < 256
      · simp [h]
      · simp only [if_neg h]
        have hd : n / 256 < n := Nat.div_lt_self (by omega) (by omega)
        rw [beBytesCore_append f, beBytesCore_append f₂,
          ih f₂ (n / 256) (by omega) (by omega)]

/-- Unfolding equation for `beBytes` that hides the fuel. -/
theorem beBytes_eq (n : Nat) :
    beBytes n = if n < 256 then [n] else beBytes (n / 256) ++ [n % 256] := by
  by_cases h : n < 256
  · simp only [beBytes, beBytesCore, if_pos h]
  · rw [if_neg h]
    have hd : n / 256 < n := Nat.div_lt_self (by omega) (by omega)
    have step : beBytes n = beBytesCore n (n / 256) [n % 256] := by
      simp only [beBytes, beBytesCore, if_neg h]
    rw [step, beBytesCore_append n (n / 256) [n % 256],
      beBytesCore_mono n (n / 256 + 1) (n / 256) (by omega) (by omega)]
    rfl

theorem byteCountCore_mono :
    ∀ fuel₁ fuel₂ n, n < fuel₁ → n < fuel₂ →
      byteCountCore fuel₁ n = byteCountCore fuel₂ n := by
  intro fuel₁
  induction fuel₁ with
  | zero => intro fuel₂ n h₁ _; omega
  | succ f ih =>
    intro fuel₂ n h₁ h₂
    cases fuel₂ with
    | zero => omega
    | succ f₂ =>
      simp only [byteCountCore]
      by_cases h : n < 256
      · simp [h]
      · simp only [if_neg h]
        have hd : n / 256 < n := Nat.div_lt_self (by omega) (by omega)
        rw [ih f₂ (n / 256) (by omega) (by omega)]

/-- Unfolding equation for `byteCount` that hides the fuel. -/
theorem byteCount_eq (n : Nat) :
    byteCount n = if n < 256 then 1 else byteCount (n / 256) + 1 := by
  by_cases h : n < 256
  · simp only [byteCount, byteCountCore, if_pos h]
  · rw [if_neg h]
    have hd : n / 256 < n := Nat.div_lt_self (by omega) (by omega)
    have step : byteCount n = byteCountCore n (n / 256) + 1 := by
      simp only [byteCount, byteCountCore, if_neg h]
    rw [step, byteCountCore_mono n (n / 256 + 1) (n / 256) (by omega) (by omega)]
    rfl

/-- The precomputed byte count agrees with the byte expansion a writer
emits. -/
theorem byteCount_eq_length (n : Nat) : byteCount n = (beBytes n).length := by
  induction n using Nat.strong_induction_on with
  | _ n ih =>
    rw [byteCount_eq, beBytes_eq]
    by_cases h : n < 256
    · simp [h]
    · simp only [if_neg h, List.length_append, List.length_cons, List.length_nil]
      rw [ih (n / 256) (Nat.div_lt_self (by omega) (by omega))]

theorem beBytes_ne_nil (n : Nat) : beBytes n ≠ [] := by
  rw [beBytes_eq]
  by_cases h : n < 256 <;> simp [h]

/-- Folding base-256 digits back up recovers the encoded number. -/
theorem foldl_beBytes (n : Nat) :
    List.foldl (fun acc d => acc * 256 + d) 0 (beBytes n) = n := by
  induction n using Nat.strong_induction_on with
  | _ n ih =>
    rw [beBytes_eq]
    by_cases h : n < 256
    · simp [h]
    · simp only [if_neg h]
      rw [List.foldl_append, ih (n / 256) (Nat.div_lt_self (by omega) (by omega))]
      simp only [List.foldl_cons, List.foldl_nil]
      omega

/-- A number below `256 ^ (k + 1)` expands to at most `k + 1` bytes. -/
theorem beBytes_length_le : ∀ k n, n < 256 ^ (k + 1) → (beBytes n).length ≤ k + 1 := by
  intro k
  induction k with
  | zero =>
    intro n h
    rw [beBytes_eq, if_pos (by simpa using h)]
    simp
  | succ j ih =>
    intro n h
    rw [beBytes_eq]
    by_cases hn : n < 256
    · simp [hn]
    · simp only [if_neg hn, List.length_append, List.length_cons, List.length_nil]
      have h' : n / 256 < 256 ^ (j + 1) := by
        rw [Nat.div_lt_iff_lt_mul (by omega : (0:Nat) < 256)]
        calc n < 256 ^ (j + 1 + 1) := h
        _ = 256 ^ (j + 1) * 256 := by rw [pow_succ]
      have := ih (n / 256) h'
      omega

/-! ### Round trip of the header and length encodings -/

/-- Parsing a DER-encoded definite length recovers the length and leaves the
following bytes untouched; `n` fits in a `usize`, so its expansion has at
most 8 bytes. -/
theorem parseLength_round (n : Nat) (rest : List Nat) (h : n < 2 ^ 64) :
    parseLength ((Length.Definite n).to_der ++ rest) = Except.ok (Length.Definite n, rest) := by
  by_cases hn : n ≤ 127
  · simp only [Length.to_der, if_pos hn, List.cons_append, List.nil_append, parseLength]
    rw [if_pos (by omega : n < 0x80)]
  · have hL1 : 0 < (beBytes n).length := List.length_pos.mpr (beBytes_ne_nil n)
    have hL8 : (beBytes n).length ≤ 8 := by
      refine beBytes_length_le 7 n ?_
      calc n < 2 ^ 64 := h
      _ = 256 ^ (7 + 1) := by norm_num
    simp only [Length.to_der, if_neg hn, List.cons_append, parseLength]
    rw [if_neg (by omega : ¬0x80 + (beBytes n).length < 0x80)]
    have hc : (0x80 + (beBytes n).length) % 0x80 = (beBytes n).length := by omega
    simp only [hc]
    rw [if_neg (by omega : ¬(beBytes n).length = 0),
      if_neg (by omega : ¬(beBytes n).length = 0x7f),
      if_neg (by simp : ¬(beBytes n ++ rest).length < (beBytes n).length),
      List.take_left, List.drop_left, foldl_beBytes]

/-- Parsing back the encoding a type's `to_der` emits — a tag octet below 31
(universal class, primitive, low tag number), the DER length of the content,
then the content itself — yields the corresponding `Any` borrowing the
content, and leaves the trailing bytes. -/
theorem parseAny_encoding (t : Nat) (ht : t < 31) (data rest : List Nat)
    (h : data.length < 2 ^ 64) :
    parseAny ((t :: (Length.Definite data.length).to_der) ++ (data ++ rest)) =
      Except.ok
        (Any.mk (Header.new Class.Universal 0 (Tag.mk t) (Length.Definite data.length))
          (Cow.Borrowed data), rest) := by
  simp only [parseAny, parseHeader, List.cons_append]
  rw [parseLength_round data.length (data ++ rest) h]
  have h1 : t / 64 = 0 := by omega
  have h2 : t / 32 % 2 = 0 := by omega
  have h3 : t % 32 = t := by omega
  rw [h1, h2, h3]
  simp only [classOfBits, Header.new]
  rw [if_neg (by simp : ¬(data ++ rest).length < data.length),
    List.take_left, List.drop_left]
  simp

/-! ### The two-digit decimal format -/

/-- For values below 100 — every field of a grammar-valid `UtcTime` — the
two-digit format produces exactly the two ASCII digits of the value. -/
theorem fmt02_eq_two_digits : ∀ n < 100, fmt02 n = [0x30 + n / 10, 0x30 + n % 10] := by
  decide

/-- Decoding the two ASCII digits of a value below 100 recovers the value. -/
theorem decode_decimal_digits (t : Tag) (a b : Nat) (ha : a ≤ 9) (hb : b ≤ 9) :
    decode_decimal t (0x30 + a) (0x30 + b) = Except.ok (a * 10 + b) := by
  simp only [decode_decimal, if_pos (by omega : 0x30 ≤ 0x30 + a ∧ 0x30 + a ≤ 0x39 ∧
    0x30 ≤ 0x30 + b ∧ 0x30 + b ≤ 0x39)]
  congr 1
  omega

/-! ### Per-type round-trip lemmas -/

theorem roundtrip_Boolean (b : Boolean) (hb : b.value = 0 ∨ b.value = 0xff) :
    Boolean.from_der (Boolean.to_der b) = some (Except.ok (b, [])) := by
  obtain ⟨v⟩ := b
  rcases hb with h | h <;> subst h <;> rfl

theorem roundtrip_Bool (x : Bool) :
    Bool.from_der (Bool.to_der x) = some (Except.ok (x, [])) := by
  cases x <;> rfl

theorem roundtrip_Null (n : Null) :
    Null.from_der (Null.to_der n) = Except.ok (n, []) := by
  obtain ⟨⟩ := n
  rfl

theorem roundtrip_Unit (u : Unit) :
    Unit.from_der (Unit.to_der u) = Except.ok (u, []) := by
  obtain ⟨⟩ := u
  rfl

theorem roundtrip_OctetString (s : OctetString) (h : s.data.bytes.length < 2 ^ 64) :
    OctetString.from_der (OctetString.to_der s) =
      Except.ok (OctetString.new s.data.bytes, []) := by
  have enc : OctetString.to_der s =
      (4 :: (Length.Definite s.data.bytes.length).to_der) ++ (s.data.bytes ++ []) := by
    simp [OctetString.to_der, Header.to_der, Header.new, Class.bits, Tag.OctetString]
  simp only [OctetString.from_der, enc, parseAny_encoding 4 (by omega) s.data.bytes [] h]
  simp [OctetString.try_from, Tag.assert_eq, Any.tag, Any.into_cow, OctetString.new,
    Tag.OctetString, Header.new]

theorem roundtrip_Slice (s : List Nat) (h : s.length < 2 ^ 64) :
    Slice.from_der (Slice.to_der s) = Except.ok (s, []) := by
  have enc : Slice.to_der s = (4 :: (Length.Definite s.length).to_der) ++ (s ++ []) := by
    simp [Slice.to_der, Header.to_der, Header.new, Class.bits, Tag.OctetString]
  simp only [Slice.from_der, enc, parseAny_encoding 4 (by omega) s [] h]
  simp [Slice.try_from, OctetString.try_from, Tag.assert_eq, Any.tag, Any.into_cow,
    Tag.OctetString, Header.new]

theorem roundtrip_GeneralString (g : GeneralString) (hA : ∀ b ∈ g.data, b ≤ 0x7f)
    (h : g.data.length < 2 ^ 64) :
    GeneralString.from_der (GeneralString.to_der g) = Except.ok (g, []) := by
  obtain ⟨data⟩ := g
  have enc : GeneralString.to_der ⟨data⟩ =
      (27 :: (Length.Definite data.length).to_der) ++ (data ++ []) := by
    simp [GeneralString.to_der, Header.to_der, Header.new, Class.bits, Tag.GeneralString]
  simp only [GeneralString.from_der, enc, parseAny_encoding 27 (by omega) data [] h]
  have hall : data.all (fun b => decide (b ≤ 0x7f)) = true := by
    simpa [List.all_eq_true, decide_eq_true_eq] using hA
  simp [GeneralString.try_from, GeneralString.test_string_charset, Tag.assert_eq,
    Any.tag, Tag.GeneralString, Header.new, Cow.bytes, hall]

/-- Parsing the canonical content `YYMMDDhhmmssZ` produced by the encoder
recovers the fields when they satisfy the grammar bounds. -/
theorem from_bytes_canonical (y mo d h mi s : Nat) (hy : y ≤ 99) (hmo : mo ≤ 12)
    (hd : d ≤ 31) (hh : h ≤ 23) (hmi : mi ≤ 59) (hs : s ≤ 59) :
    UtcTime.from_bytes (fmt02 y ++ fmt02 mo ++ fmt02 d ++ fmt02 h ++ fmt02 mi ++
      fmt02 s ++ [0x5a]) =
      Except.ok (UtcTime.new (ASN1DateTime.new y mo d h mi s none ASN1TimeZone.Z)) := by
  rw [fmt02_eq_two_digits y (by omega), fmt02_eq_two_digits mo (by omega),
    fmt02_eq_two_digits d (by omega), fmt02_eq_two_digits h (by omega),
    fmt02_eq_two_digits mi (by omega), fmt02_eq_two_digits s (by omega)]
  simp only [List.cons_append, List.nil_append]
  simp only [UtcTime.from_bytes]
  rw [decode_decimal_digits Tag.UtcTime (y/10) (y%10) (by omega) (by omega),
    decode_decimal_digits Tag.UtcTime (mo/10) (mo%10) (by omega) (by omega),
    decode_decimal_digits Tag.UtcTime (d/10) (d%10) (by omega) (by omega),
    decode_decimal_digits Tag.UtcTime (h/10) (h%10) (by omega) (by omega),
    decode_decimal_digits Tag.UtcTime (mi/10) (mi%10) (by omega) (by omega)]
  simp only [bind, Except.bind, pure, Except.pure, List.isEmpty_cons, Bool.false_eq_true,
    if_false]
  rw [decode_decimal_digits Tag.UtcTime (s/10) (s%10) (by omega) (by omega)]
  simp only [bind, Except.bind, pure, Except.pure]
  have e1 : y / 10 * 10 + y % 10 = y := by omega
  have e2 : mo / 10 * 10 + mo % 10 = mo := by omega
  have e3 : d / 10 * 10 + d % 10 = d := by omega
  have e4 : h / 10 * 10 + h % 10 = h := by omega
  have e5 : mi / 10 * 10 + mi % 10 = mi := by omega
  have e6 : s / 10 * 10 + s % 10 = s := by omega
  rw [e1, e2, e3, e4, e5, e6, if_neg (by omega)]

theorem roundtrip_UtcTime (t : UtcTime) (hy : t.dt.year ≤ 99) (hmo : t.dt.month ≤ 12)
    (hd : t.dt.day ≤ 31) (hh : t.dt.hour ≤ 23) (hmi : t.dt.minute ≤ 59)
    (hs : t.dt.second ≤ 59) (hf : t.dt.fractional = none) (hz : t.dt.tz = ASN1TimeZone.Z) :
    UtcTime.from_der (UtcTime.to_der t) = Except.ok (t, []) := by
  obtain ⟨⟨y, mo, d, h, mi, s, fr, tz⟩⟩ := t
  simp only at hy hmo hd hh hmi hs hf hz
  subst hf hz
  have hlen : (fmt02 y ++ fmt02 mo ++ fmt02 d ++ fmt02 h ++ fmt02 mi ++ fmt02 s ++
      [0x5a]).length = 13 := by
    rw [fmt02_eq_two_digits y (by omega), fmt02_eq_two_digits mo (by omega),
      fmt02_eq_two_digits d (by omega), fmt02_eq_two_digits h (by omega),
      fmt02_eq_two_digits mi (by omega), fmt02_eq_two_digits s (by omega)]
    simp
  have enc : UtcTime.to_der ⟨⟨y, mo, d, h, mi, s, none, ASN1TimeZone.Z⟩⟩ =
      (23 :: (Length.Definite (fmt02 y ++ fmt02 mo ++ fmt02 d ++ fmt02 h ++ fmt02 mi ++
        fmt02 s ++ [0x5a]).length).to_der) ++
      ((fmt02 y ++ fmt02 mo ++ fmt02 d ++ fmt02 h ++ fmt02 mi ++ fmt02 s ++ [0x5a]) ++ []) := by
    rw [hlen]
    simp [UtcTime.to_der, UtcTime.write_der_header, UtcTime.write_der_content, Tag.UtcTime,
      Length.to_der]
  have hvis : (fmt02 y ++ fmt02 mo ++ fmt02 d ++ fmt02 h ++ fmt02 mi ++ fmt02 s ++
      [0x5a]).all is_visible = true := by
    rw [fmt02_eq_two_digits y (by omega), fmt02_eq_two_digits mo (by omega),
      fmt02_eq_two_digits d (by omega), fmt02_eq_two_digits h (by omega),
      fmt02_eq_two_digits mi (by omega), fmt02_eq_two_digits s (by omega)]
    simp only [List.cons_append, List.nil_append, List.all_cons, List.all_nil, is_visible,
      Bool.and_eq_true, decide_eq_true_eq, and_true, true_and]
    omega
  simp only [UtcTime.from_der, enc,
    parseAny_encoding 23 (by omega) _ [] (by rw [hlen]; norm_num)]
  simp only [UtcTime.try_from, Tag.assert_eq, Any.tag, Header.new, Tag.UtcTime, Cow.bytes,
    hvis, if_true, not_true, Bool.not_eq_true, if_false]
  rw [from_bytes_canonical y mo d h mi s hy hmo hd hh hmi hs]
  rfl

/-! ### Length bookkeeping lemmas -/

/-- The precomputed encoded-length size agrees with the bytes the length
encoder emits. -/
theorem length_Length_to_der (l : Length) : (Length.to_der l).length = l.to_der_len := by
  cases l with
  | Definite n =>
    by_cases h : n ≤ 127
    · simp [Length.to_der, Length.to_der_len, h]
    · simp [Length.to_der, Length.to_der_len, h, byteCount_eq_length]
      omega
  | Indefinite => rfl

/-- The precomputed header size agrees with the bytes the header encoder
emits. -/
theorem length_Header_to_der (h : Header) : (Header.to_der h).length = h.to_der_len := by
  simp [Header.to_der, Header.to_der_len, length_Length_to_der, Nat.add_comm]

/-- Every grammar-bounded field formats to exactly two bytes. -/
theorem fmt02_length {n : Nat} (h : n ≤ 99) : (fmt02 n).length = 2 := by
  rw [fmt02_eq_two_digits n (by omega)]
  rfl

/-! ### Claim theorems -/

/-- C1: for every implemented type (Boolean, bool, Null, unit, OctetString,
byte slice, GeneralString, UtcTime) and every value whose stored
representation is in canonical DER form — a Boolean octet of 0x00 or 0xff,
content lengths within `usize`, ASCII content for GeneralString, and a
grammar-bounded Z-normalized UtcTime without fractional seconds — feeding the
bytes produced by `to_der` back through the decode path (header/`Any` parse
followed by the typed conversion) yields a value equal to the original, with
no input left over. -/
theorem der_round_trip_all_types
    (b : Boolean) (hb : b.value = 0 ∨ b.value = 0xff)
    (x : Bool) (n : Null) (u : Unit)
    (s : OctetString) (hsl : s.data.bytes.length < 2 ^ 64)
    (r : List Nat) (hrl : r.length < 2 ^ 64)
    (g : GeneralString) (hgA : ∀ c ∈ g.data, c ≤ 0x7f) (hgl : g.data.length < 2 ^ 64)
    (t : UtcTime) (hty : t.dt.year ≤ 99) (htmo : t.dt.month ≤ 12) (htd : t.dt.day ≤ 31)
    (hth : t.dt.hour ≤ 23) (htmi : t.dt.minute ≤ 59) (hts : t.dt.second ≤ 59)
    (htf : t.dt.fractional = none) (htz : t.dt.tz = ASN1TimeZone.Z) :
    Boolean.from_der (Boolean.to_der b) = some (Except.ok (b, [])) ∧
    Bool.from_der (Bool.to_der x) = some (Except.ok (x, [])) ∧
    Null.from_der (Null.to_der n) = Except.ok (n, []) ∧
    Unit.from_der (Unit.to_der u) = Except.ok (u, []) ∧
    OctetString.from_der (OctetString.to_der s) = Except.ok (OctetString.new s.data.bytes, []) ∧
    Slice.from_der (Slice.to_der r) = Except.ok (r, []) ∧
    GeneralString.from_der (GeneralString.to_der g) = Except.ok (g, []) ∧
    UtcTime.from_der (UtcTime.to_der t) = Except.ok (t, []) :=
  ⟨roundtrip_Boolean b hb, roundtrip_Bool x, roundtrip_Null n, roundtrip_Unit u,
   roundtrip_OctetString s hsl, roundtrip_Slice r hrl,
   roundtrip_GeneralString g hgA hgl,
   roundtrip_UtcTime t hty htmo htd hth htmi hts htf htz⟩

/-- Witness for C1 at concrete canonical values of every type. -/
theorem der_round_trip_all_types_witness :
    Boolean.from_der (Boolean.to_der (Boolean.new 0xff)) =
      some (Except.ok (Boolean.new 0xff, [])) ∧
    Bool.from_der (Bool.to_der true) = some (Except.ok (true, [])) ∧
    Null.from_der (Null.to_der Null.new) = Except.ok (Null.new, []) ∧
    Unit.from_der (Unit.to_der ()) = Except.ok ((), []) ∧
    OctetString.from_der (OctetString.to_der (OctetString.new [1, 2, 3])) =
      Except.ok (OctetString.new (OctetString.new [1, 2, 3]).data.bytes, []) ∧
    Slice.from_der (Slice.to_der [5]) = Except.ok ([5], []) ∧
    GeneralString.from_der (GeneralString.to_der ⟨[65, 66]⟩) = Except.ok (⟨[65, 66]⟩, []) ∧
    UtcTime.from_der (UtcTime.to_der
        (UtcTime.new (ASN1DateTime.new 99 12 31 23 59 59 none ASN1TimeZone.Z))) =
      Except.ok (UtcTime.new (ASN1DateTime.new 99 12 31 23 59 59 none ASN1TimeZone.Z), []) :=
  der_round_trip_all_types (Boolean.new 0xff) (Or.inr rfl) true Null.new ()
    (OctetString.new [1, 2, 3]) (by decide) [5] (by decide)
    ⟨[65, 66]⟩ (by decide) (by decide)
    (UtcTime.new (ASN1DateTime.new 99 12 31 23 59 59 none ASN1TimeZone.Z))
    (by decide) (by decide) (by decide) (by decide) (by decide) (by decide)
    rfl rfl

/-- C2 (amended): `to_der_len` returns `Ok` of exactly the number of bytes
`to_der` writes for Boolean, bool, Null, unit, OctetString, byte slices and
GeneralString unconditionally, and for UtcTime provided every datetime field
is at most 99 (as is the case for every parsed value); in particular UtcTime
reports 15, Boolean and bool report 3, Null and unit report 2, and the
string-like types report header length plus content length. -/
theorem to_der_len_matches_bytes_written
    (b : Boolean) (x : Bool) (n : Null) (u : Unit) (s : OctetString) (r : List Nat)
    (g : GeneralString) (t : UtcTime)
    (hty : t.dt.year ≤ 99) (htmo : t.dt.month ≤ 99) (htd : t.dt.day ≤ 99)
    (hth : t.dt.hour ≤ 99) (htmi : t.dt.minute ≤ 99) (hts : t.dt.second ≤ 99) :
    Boolean.to_der_len b = Except.ok (Boolean.to_der b).length ∧
    Bool.to_der_len x = Except.ok (Bool.to_der x).length ∧
    Null.to_der_len n = Except.ok (Null.to_der n).length ∧
    Unit.to_der_len u = Except.ok (Unit.to_der u).length ∧
    OctetString.to_der_len s = Except.ok (OctetString.to_der s).length ∧
    Slice.to_der_len r = Except.ok (Slice.to_der r).length ∧
    GeneralString.to_der_len g = Except.ok (GeneralString.to_der g).length ∧
    UtcTime.to_der_len t = Except.ok (UtcTime.to_der t).length := by
  refine ⟨rfl, rfl, rfl, rfl, ?_, ?_, ?_, ?_⟩
  · simp [OctetString.to_der_len, OctetString.to_der, length_Header_to_der]
  · simp [Slice.to_der_len, Slice.to_der, length_Header_to_der]
  · simp [GeneralString.to_der_len, GeneralString.to_der, length_Header_to_der]
  · simp [UtcTime.to_der_len, UtcTime.to_der, UtcTime.write_der_header,
      UtcTime.write_der_content, fmt02_length hty, fmt02_length htmo, fmt02_length htd,
      fmt02_length hth, fmt02_length htmi, fmt02_length hts]

/-- Witness for C2 at concrete values of every type. -/
theorem to_der_len_matches_bytes_written_witness :
    Boolean.to_der_len (Boolean.new 7) = Except.ok (Boolean.to_der (Boolean.new 7)).length ∧
    Null.to_der_len Null.new = Except.ok (Null.to_der Null.new).length ∧
    OctetString.to_der_len (OctetString.new (List.replicate 300 1)) =
      Except.ok (OctetString.to_der (OctetString.new (List.replicate 300 1))).length ∧
    UtcTime.to_der_len (UtcTime.new (ASN1DateTime.new 20 1 2 3 4 5 none ASN1TimeZone.Z)) =
      Except.ok (UtcTime.to_der
        (UtcTime.new (ASN1DateTime.new 20 1 2 3 4 5 none ASN1TimeZone.Z))).length := by
  have h := to_der_len_matches_bytes_written (Boolean.new 7) true Null.new ()
    (OctetString.new (List.replicate 300 1)) [] ⟨[]⟩
    (UtcTime.new (ASN1DateTime.new 20 1 2 3 4 5 none ASN1TimeZone.Z))
    (by decide) (by decide) (by decide) (by decide) (by decide) (by decide)
  exact ⟨h.1, h.2.2.1, h.2.2.2.2.1, h.2.2.2.2.2.2.2⟩

/-- C2 counterexample: a `UtcTime` whose year field is 100 — a representable
value, since the year is stored as a full machine integer — reports a length
of 15 but actually writes 16 bytes, because the two-digit format widens for
values above 99. -/
theorem utctime_len_mismatch_counterexample :
    UtcTime.to_der_len (UtcTime.new (ASN1DateTime.new 100 1 1 0 0 0 none ASN1TimeZone.Z)) =
      Except.ok 15 ∧
    (UtcTime.to_der
      (UtcTime.new (ASN1DateTime.new 100 1 1 0 0 0 none ASN1TimeZone.Z))).length = 16 ∧
    ¬UtcTime.to_der_len (UtcTime.new (ASN1DateTime.new 100 1 1 0 0 0 none ASN1TimeZone.Z)) =
      Except.ok (UtcTime.to_der
        (UtcTime.new (ASN1DateTime.new 100 1 1 0 0 0 none ASN1TimeZone.Z))).length := by
  refine ⟨rfl, rfl, ?_⟩
  intro h
  rw [show (UtcTime.to_der
      (UtcTime.new (ASN1DateTime.new 100 1 1 0 0 0 none ASN1TimeZone.Z))).length = 16
    from rfl] at h
  exact absurd (Except.ok.inj h) (by omega)

/-- C3 (code evaluation at the failing input): parsing the 15-byte content
"9912312359+0100" fails with an invalid-value error, because after the ten
leading digits the parser unconditionally consumes the next two bytes, here
the plus sign and a zero, as the seconds field, and the plus sign is not a
digit; the same instant with explicit seconds, "991231235959+0100", parses
with zone Offset(+1, 01, 00). This contradicts the grammar quoted in the
function's own documentation, which allows hhmm directly followed by an
offset. -/
theorem utctime_offset_without_seconds_rejected :
    UtcTime.from_bytes [0x39, 0x39, 0x31, 0x32, 0x33, 0x31, 0x32, 0x33, 0x35, 0x39,
        0x2b, 0x30, 0x31, 0x30, 0x30] =
      Except.error (Error.InvalidValue 23 "not a digit") ∧
    UtcTime.from_bytes [0x39, 0x39, 0x31, 0x32, 0x33, 0x31, 0x32, 0x33, 0x35, 0x39,
        0x35, 0x39, 0x2b, 0x30, 0x31, 0x30, 0x30] =
      Except.ok (UtcTime.new (ASN1DateTime.new 99 12 31 23 59 59 none
        (ASN1TimeZone.Offset 1 1 0))) :=
  ⟨rfl, rfl⟩

/-- C4 (code evaluation at the failing input): an `Any` with the Boolean tag,
the constructed bit set, definite length 1 and content 0x00 is accepted by
both the permissive conversion and the DER constraint check — neither calls
`assert_primitive`, although `assert_primitive` on this very header would
reject it. -/
theorem boolean_constructed_accepted :
    Boolean.try_from (Any.mk (Header.new Class.Universal 1 Tag.Boolean (Length.Definite 1))
        (Cow.Borrowed [0x00])) = some (Except.ok (Boolean.new 0x00)) ∧
    Boolean.check_constraints (Any.mk (Header.new Class.Universal 1 Tag.Boolean
        (Length.Definite 1)) (Cow.Borrowed [0x00])) = some (Except.ok ()) ∧
    (Header.new Class.Universal 1 Tag.Boolean (Length.Definite 1)).assert_primitive =
      Except.error Error.DerConstraintFailed :=
  ⟨rfl, rfl, rfl⟩

/-- C5: for an `Any` with Boolean tag and definite length 1, content 0x01
passes the permissive conversion (decoding to a value whose `bool()` is
true) but fails `check_constraints` with `DerConstraintFailed`, while
contents 0x00 and 0xff pass both. -/
theorem boolean_der_strictness :
    Boolean.try_from (Any.mk (Header.new Class.Universal 0 Tag.Boolean (Length.Definite 1))
        (Cow.Borrowed [0x01])) = some (Except.ok (Boolean.new 0x01)) ∧
    Boolean.check_constraints (Any.mk (Header.new Class.Universal 0 Tag.Boolean
        (Length.Definite 1)) (Cow.Borrowed [0x01])) =
      some (Except.error Error.DerConstraintFailed) ∧
    (Boolean.new 0x01).bool = true ∧
    Boolean.try_from (Any.mk (Header.new Class.Universal 0 Tag.Boolean (Length.Definite 1))
        (Cow.Borrowed [0x00])) = some (Except.ok (Boolean.new 0x00)) ∧
    Boolean.check_constraints (Any.mk (Header.new Class.Universal 0 Tag.Boolean
        (Length.Definite 1)) (Cow.Borrowed [0x00])) = some (Except.ok ()) ∧
    Boolean.try_from (Any.mk (Header.new Class.Universal 0 Tag.Boolean (Length.Definite 1))
        (Cow.Borrowed [0xff])) = some (Except.ok (Boolean.new 0xff)) ∧
    Boolean.check_constraints (Any.mk (Header.new Class.Universal 0 Tag.Boolean
        (Length.Definite 1)) (Cow.Borrowed [0xff])) = some (Except.ok ()) :=
  ⟨rfl, rfl, rfl, rfl, rfl, rfl, rfl⟩

/-- C6: for every `UtcTime` whose fields satisfy the parsed grammar's bounds
(two-digit year), `to_der` writes exactly 15 bytes — 2 header bytes then 13
content bytes — the seconds field is always present and zero-padded to two
digits, and the content always ends with the byte `Z`, regardless of the
timezone variant carried by the value. -/
theorem utctime_encoding_fixed_width (t : UtcTime) (h1 : t.dt.year ≤ 99)
    (h2 : t.dt.month ≤ 12) (h3 : t.dt.day ≤ 31) (h4 : t.dt.hour ≤ 23)
    (h5 : t.dt.minute ≤ 59) (h6 : t.dt.second ≤ 59) :
    (UtcTime.to_der t).length = 15 ∧
    (UtcTime.write_der_header t).length = 2 ∧
    (UtcTime.write_der_content t).length = 13 ∧
    (fmt02 t.dt.second).length = 2 ∧
    (UtcTime.write_der_content t).getLast? = some 0x5a := by
  obtain ⟨⟨y, mo, dy, ho, mi, se, fr, tz⟩⟩ := t
  simp only at h1 h2 h3 h4 h5 h6
  refine ⟨?_, rfl, ?_, fmt02_length (show se ≤ 99 by omega), ?_⟩
  · simp [UtcTime.to_der, UtcTime.write_der_header, UtcTime.write_der_content,
      fmt02_length (show y ≤ 99 by omega), fmt02_length (show mo ≤ 99 by omega),
      fmt02_length (show dy ≤ 99 by omega), fmt02_length (show ho ≤ 99 by omega),
      fmt02_length (show mi ≤ 99 by omega), fmt02_length (show se ≤ 99 by omega)]
  · simp [UtcTime.write_der_content,
      fmt02_length (show y ≤ 99 by omega), fmt02_length (show mo ≤ 99 by omega),
      fmt02_length (show dy ≤ 99 by omega), fmt02_length (show ho ≤ 99 by omega),
      fmt02_length (show mi ≤ 99 by omega), fmt02_length (show se ≤ 99 by omega)]
  · simp only [UtcTime.write_der_content]
    rw [fmt02_eq_two_digits y (by omega), fmt02_eq_two_digits mo (by omega),
      fmt02_eq_two_digits dy (by omega), fmt02_eq_two_digits ho (by omega),
      fmt02_eq_two_digits mi (by omega), fmt02_eq_two_digits se (by omega)]
    rfl

/-- Witness for C6 at a concrete value carrying an offset timezone. -/
theorem utctime_encoding_fixed_width_witness :
    (UtcTime.to_der (UtcTime.new (ASN1DateTime.new 5 6 7 8 9 10 none
        (ASN1TimeZone.Offset (-1) 2 30)))).length = 15 ∧
    (UtcTime.write_der_header (UtcTime.new (ASN1DateTime.new 5 6 7 8 9 10 none
        (ASN1TimeZone.Offset (-1) 2 30)))).length = 2 ∧
    (UtcTime.write_der_content (UtcTime.new (ASN1DateTime.new 5 6 7 8 9 10 none
        (ASN1TimeZone.Offset (-1) 2 30)))).length = 13 ∧
    (fmt02 (UtcTime.new (ASN1DateTime.new 5 6 7 8 9 10 none
        (ASN1TimeZone.Offset (-1) 2 30))).dt.second).length = 2 ∧
    (UtcTime.write_der_content (UtcTime.new (ASN1DateTime.new 5 6 7 8 9 10 none
        (ASN1TimeZone.Offset (-1) 2 30)))).getLast? = some 0x5a :=
  utctime_encoding_fixed_width
    (UtcTime.new (ASN1DateTime.new 5 6 7 8 9 10 none (ASN1TimeZone.Offset (-1) 2 30)))
    (by decide) (by decide) (by decide) (by decide) (by decide) (by decide)

/-- C7 counterexample: an `Any` with the Null tag, nonzero length and the
constructed bit set makes `TryFrom<Any> for ()` fail in `assert_primitive`
before the length check, so the returned error is not `InvalidLength` as the
claim states for every nonzero-length `Any`. -/
theorem unit_constructed_error_counterexample :
    Unit.try_from (Any.mk (Header.new Class.Universal 1 Tag.Null (Length.Definite 1))
        (Cow.Borrowed [0x00])) = Except.error Error.DerConstraintFailed ∧
    Unit.try_from (Any.mk (Header.new Class.Universal 1 Tag.Null (Length.Definite 1))
        (Cow.Borrowed [0x00])) ≠ Except.error Error.InvalidLength := by
  refine ⟨rfl, ?_⟩
  intro h
  rw [show Unit.try_from (Any.mk (Header.new Class.Universal 1 Tag.Null (Length.Definite 1))
        (Cow.Borrowed [0x00])) = Except.error Error.DerConstraintFailed from rfl] at h
  exact absurd (Except.error.inj h) (by intro hx; cases hx)

/-- C7 (amended): for every `Any` with the Null tag whose length is not zero,
`TryFrom<Any> for Null` returns `InvalidLength`, and `TryFrom<Any> for ()`
returns `InvalidLength` provided the encoding is primitive (a constructed
`Any` fails earlier in `assert_primitive` with a different error); encoding a
`Null` or `()` always produces exactly the two bytes 0x05 0x00. -/
theorem null_rejects_nonzero_length_and_fixed_encoding :
    (∀ a : Any, a.header.tag = Tag.Null → a.header.length.is_null = false →
      Null.try_from a = Except.error Error.InvalidLength) ∧
    (∀ a : Any, a.header.tag = Tag.Null → a.header.length.is_null = false →
      a.header.constructed = 0 →
      Unit.try_from a = Except.error Error.InvalidLength) ∧
    (∀ n : Null, Null.to_der n = [0x05, 0x00]) ∧
    (∀ u : Unit, Unit.to_der u = [0x05, 0x00]) := by
  refine ⟨?_, ?_, fun n => rfl, fun u => rfl⟩
  · rintro ⟨⟨cls, ctd, tg, len⟩, dat⟩ ht hl
    simp only at ht hl
    subst ht
    simp [Null.try_from, Tag.assert_eq, Any.tag, hl]
  · rintro ⟨⟨cls, ctd, tg, len⟩, dat⟩ ht hl hp
    simp only at ht hl hp
    subst ht
    subst hp
    simp [Unit.try_from, Tag.assert_eq, Any.tag, Header.assert_primitive, hl]

/-- Witness for C7 on a primitive `Any` with the Null tag and length 3. -/
theorem null_rejects_nonzero_length_witness :
    Null.try_from (Any.mk (Header.new Class.Universal 0 Tag.Null (Length.Definite 3))
        (Cow.Borrowed [1, 2, 3])) = Except.error Error.InvalidLength ∧
    Unit.try_from (Any.mk (Header.new Class.Universal 0 Tag.Null (Length.Definite 3))
        (Cow.Borrowed [1, 2, 3])) = Except.error Error.InvalidLength ∧
    Null.to_der Null.new = [0x05, 0x00] ∧
    Unit.to_der () = [0x05, 0x00] :=
  ⟨null_rejects_nonzero_length_and_fixed_encoding.1 _ rfl rfl,
   null_rejects_nonzero_length_and_fixed_encoding.2.1 _ rfl rfl rfl,
   null_rejects_nonzero_length_and_fixed_encoding.2.2.1 Null.new,
   null_rejects_nonzero_length_and_fixed_encoding.2.2.2 ()⟩

/-- C8: decoding an `Any` with the OctetString tag into the zero-copy byte
slice returns `LifetimeError` whenever the content is an owned buffer, and
returns exactly the borrowed bytes (never a copy of an owned buffer)
whenever the content is borrowed. -/
theorem slice_decode_borrow_or_lifetime_error (h : Header) (bytes : List Nat)
    (ht : h.tag = Tag.OctetString) :
    Slice.try_from (Any.mk h (Cow.Owned bytes)) = Except.error Error.LifetimeError ∧
    Slice.try_from (Any.mk h (Cow.Borrowed bytes)) = Except.ok bytes := by
  obtain ⟨cls, ctd, tg, len⟩ := h
  simp only at ht
  subst ht
  constructor <;>
    simp [Slice.try_from, OctetString.try_from, Tag.assert_eq, Any.tag, Any.into_cow]

/-- Witness for C8 at a concrete header and content. -/
theorem slice_decode_borrow_or_lifetime_error_witness :
    Slice.try_from (Any.mk (Header.new Class.Universal 0 Tag.OctetString
        (Length.Definite 2)) (Cow.Owned [7, 8])) = Except.error Error.LifetimeError ∧
    Slice.try_from (Any.mk (Header.new Class.Universal 0 Tag.OctetString
        (Length.Definite 2)) (Cow.Borrowed [7, 8])) = Except.ok [7, 8] :=
  slice_decode_borrow_or_lifetime_error
    (Header.new Class.Universal 0 Tag.OctetString (Length.Definite 2)) [7, 8] rfl

/-- C9: the GeneralString charset validation fails with
`StringInvalidCharset` whenever some content byte is at least 0x80, succeeds
whenever every byte is ASCII, and in the failing case the decode conversion
returns the error without producing any string value. -/
theorem generalstring_charset_validation (i : List Nat) :
    ((∃ c ∈ i, 0x80 ≤ c) →
      GeneralString.test_string_charset i = Except.error Error.StringInvalidCharset) ∧
    ((∀ c ∈ i, c ≤ 0x7f) → GeneralString.test_string_charset i = Except.ok ()) ∧
    (∀ hdr : Header, hdr.tag = Tag.GeneralString → ∀ cw : Cow, cw.bytes = i →
      (∃ c ∈ i, 0x80 ≤ c) →
      GeneralString.try_from (Any.mk hdr cw) = Except.error Error.StringInvalidCharset) := by
  have hbad : (∃ c ∈ i, 0x80 ≤ c) →
      GeneralString.test_string_charset i = Except.error Error.StringInvalidCharset := by
    rintro ⟨c, hc, hge⟩
    have : ¬i.all (fun b => decide (b ≤ 0x7f)) = true := by
      simp only [List.all_eq_true, decide_eq_true_eq, not_forall]
      exact ⟨c, hc, by omega⟩
    simp [GeneralString.test_string_charset, this]
  refine ⟨hbad, ?_, ?_⟩
  · intro hA
    have : i.all (fun b => decide (b ≤ 0x7f)) = true := by
      simpa [List.all_eq_true, decide_eq_true_eq] using hA
    simp [GeneralString.test_string_charset, this]
  · rintro ⟨cls, ctd, tg, len⟩ ht cw hcw hex
    simp only at ht
    subst ht
    simp only [GeneralString.try_from, Tag.assert_eq, Any.tag]
    rw [hcw, hbad hex]
    simp

/-- Witness for C9 on a non-ASCII input and an ASCII input. -/
theorem generalstring_charset_validation_witness :
    GeneralString.test_string_charset [0x41, 0x80] =
      Except.error Error.StringInvalidCharset ∧
    GeneralString.test_string_charset [0x41, 0x42] = Except.ok () ∧
    GeneralString.try_from (Any.mk (Header.new Class.Universal 0 Tag.GeneralString
        (Length.Definite 2)) (Cow.Borrowed [0x41, 0x80])) =
      Except.error Error.StringInvalidCharset :=
  ⟨(generalstring_charset_validation [0x41, 0x80]).1 ⟨0x80, by decide, by decide⟩,
   (generalstring_charset_validation [0x41, 0x42]).2.1 (by decide),
   (generalstring_charset_validation [0x41, 0x80]).2.2 _ rfl _ rfl
     ⟨0x80, by decide, by decide⟩⟩

/-- C10: the Boolean (and bool) DER-constraint check reads the first content
byte unconditionally: on nonempty content it totally returns `Ok` exactly
when that byte is 0x00 or 0xff and `DerConstraintFailed` otherwise, while an
`Any` with empty content makes the index out of bounds (modelled as `none`)
instead of producing an error value. -/
theorem boolean_check_constraints_partiality (a : Any) :
    (a.data.bytes = [] →
      Boolean.check_constraints a = none ∧ Bool.check_constraints a = none) ∧
    (∀ c rest, a.data.bytes = c :: rest →
      Boolean.check_constraints a =
        some (if c = 0 ∨ c = 0xff then Except.ok ()
          else Except.error Error.DerConstraintFailed) ∧
      Bool.check_constraints a =
        some (if c = 0 ∨ c = 0xff then Except.ok ()
          else Except.error Error.DerConstraintFailed)) := by
  constructor
  · intro hnil
    constructor <;> simp [Boolean.check_constraints, Bool.check_constraints, hnil]
  · intro c rest hcons
    by_cases hc : c = 0 ∨ c = 0xff <;>
      constructor <;>
        simp [Boolean.check_constraints, Bool.check_constraints, hcons, hc]

/-- Witness for C10 on an empty-content `Any` (Boolean tag, length 1, no
content bytes) and on a 1-byte content. -/
theorem boolean_check_constraints_partiality_witness :
    Boolean.check_constraints (Any.mk (Header.new Class.Universal 0 Tag.Boolean
        (Length.Definite 1)) (Cow.Borrowed [])) = none ∧
    Boolean.check_constraints (Any.mk (Header.new Class.Universal 0 Tag.Boolean
        (Length.Definite 1)) (Cow.Borrowed [5])) =
      some (Except.error Error.DerConstraintFailed) := by
  have h1 := (boolean_check_constraints_partiality (Any.mk (Header.new Class.Universal 0
    Tag.Boolean (Length.Definite 1)) (Cow.Borrowed []))).1 rfl
  have h2 := (boolean_check_constraints_partiality (Any.mk (Header.new Class.Universal 0
    Tag.Boolean (Length.Definite 1)) (Cow.Borrowed [5]))).2 5 [] rfl
  refine ⟨h1.1, ?_⟩
  rw [h2.1]
  simp

end Asn1
